import Mathlib

/-!
Verification of the core pattern/walker machinery of the salve streaming
Relax NG validator. The definitions below are shallow embeddings of the
TypeScript sources: the Empty pattern and its walker, the Value pattern and
its walker, the reference-resolution pass, walker creation for Ref/Define,
event interning, the possibility-set freshness contract and the clone memo.
-/

namespace Salve

/-- Characters belonging to the ECMAScript regular-expression whitespace
class. The source tests a text value with the regular expression that
matches any character outside this class. -/
def isJsSpace (c : Char) : Bool :=
  c = ' ' || c = '\t' || c = '\n' || c.val = 11 || c.val = 12 || c = '\r' ||
  c.val = 0xa0 || c.val = 0x1680 ||
  (0x2000 ≤ c.val && c.val ≤ 0x200a) ||
  c.val = 0x2028 || c.val = 0x2029 || c.val = 0x202f || c.val = 0x205f ||
  c.val = 0x3000 || c.val = 0xfeff

/-- The test performed by the source on a text value: does the string
contain at least one non-whitespace character? -/
def hasNonSpace (s : String) : Bool :=
  s.data.any (fun c => !(isJsSpace c))

/-- A validation error, carrying its message. -/
structure ValidationError where
  msg : String
deriving Repr, DecidableEq

/-- Result of firing an event on a walker. The source returns the value
false for a consumed event (Ok), undefined when the walker cannot handle
the event (NoMatch), and an array of validation errors otherwise. -/
inductive FireEventResult where
  | ok
  | noMatch
  | errors (errs : List ValidationError)
deriving Repr, DecidableEq

/-- Result of ending a walker: false (no error) or a list of errors. -/
inductive EndResult where
  | ok
  | errors (errs : List ValidationError)
deriving Repr, DecidableEq

/-- A parse event as fed to fireEvent: an event name and its string
parameters. -/
structure Ev where
  name : String
  params : List String
deriving Repr, DecidableEq

/-- In the source, an out-of-range indexing of the parameter array yields
the undefined value, which the regular-expression test coerces to the
string "undefined". Text events always carry exactly one parameter, so
this default is only ever exercised off the documented event contract. -/
def param0 (params : List String) : String :=
  params.headD "undefined"

/-! ### The Empty pattern and its walker -/

/-- Walker for the Empty pattern: its possibility set is always a fresh
empty set. -/
def EmptyWalker.possible : List Ev := []

/-- fireEvent of the EmptyWalker: Ok exactly for a text event whose value
has no non-whitespace character, NoMatch for everything else. The walker
carries no state, so firing returns only the result. -/
def EmptyWalker.fireEvent (name : String) (params : List String) :
    FireEventResult :=
  if name == "text" && !(hasNonSpace (param0 params)) then .ok else .noMatch

theorem hasNonSpace_eq_false_iff (s : String) :
    hasNonSpace s = false ↔ ∀ c ∈ s.data, isJsSpace c = true := by
  unfold hasNonSpace
  simp [List.any_eq_true]

/-- C2: the Empty walker returns Ok exactly for a text event whose value
contains no non-whitespace character (the empty string included), NoMatch
for every other event, and never returns validation errors. -/
theorem emptyWalker_fireEvent_characterization (name value : String) :
    (EmptyWalker.fireEvent name [value] = .ok ↔
      (name = "text" ∧ ∀ c ∈ value.data, isJsSpace c = true)) ∧
    (EmptyWalker.fireEvent name [value] = .ok ∨
      EmptyWalker.fireEvent name [value] = .noMatch) := by
  have hred : EmptyWalker.fireEvent name [value] =
      if name = "text" ∧ hasNonSpace value = false then .ok else .noMatch := by
    unfold EmptyWalker.fireEvent param0
    simp only [List.headD]
    by_cases h1 : name = "text" <;> by_cases h2 : hasNonSpace value = false <;>
      simp_all
  rw [hred]
  constructor
  · by_cases h : name = "text" ∧ hasNonSpace value = false
    · rw [if_pos h]
      constructor
      · intro _
        exact ⟨h.1, (hasNonSpace_eq_false_iff value).mp h.2⟩
      · intro _
        rfl
    · rw [if_neg h]
      constructor
      · intro hc; simp at hc
      · rintro ⟨h1, hall⟩
        exact absurd ⟨h1, (hasNonSpace_eq_false_iff value).mpr hall⟩ h
  · by_cases h : name = "text" ∧ hasNonSpace value = false <;> simp [h]

/-! ### The Value pattern and its walker -/

/-- Modelled from the spec: the name resolver (its source module is not
part of the embedded sources) is a stack of prefix-to-URI mappings. Only
its construction and prefix binding are needed here. -/
structure NameResolver where
  bindings : List (String × String)
deriving Repr, DecidableEq

/-- A freshly constructed name resolver, with no bindings. -/
def NameResolver.initial : NameResolver := ⟨[]⟩

/-- Modelled from the spec: binding a prefix to a URI in a name resolver
(the source's method that defines a prefix). -/
def NameResolver.bindPfx (nr : NameResolver) (p uri : String) : NameResolver :=
  ⟨(p, uri) :: nr.bindings⟩

/-- The context handed to a datatype: it carries a name resolver. -/
structure Context where
  resolver : NameResolver
deriving Repr, DecidableEq

/-- The datatype interface consumed by the Value pattern. Implementations
are external collaborators; the interface is parsing (which can fail with
a message), equality of a lexical form against a parsed value, and whether
a context is needed. The parsed-value domain is a type parameter. -/
structure Datatype (V : Type) where
  needsContext : Bool
  parseValue : String → String → Option Context → Except String V
  equal : String → V → Option Context → Bool

/-- A registry of datatype libraries: a library URI maps to a map from
type names to datatypes. -/
def Registry (V : Type) := String → Option (String → Option (Datatype V))

/-- The Value pattern. The field valueCache models the private _value
field: the parsed value once it has been computed by the getter. -/
structure ValuePattern (V : Type) where
  xmlPath : String
  datatype : Datatype V
  rawValue : String
  typeName : String
  datatypeLibrary : String
  ns : String
  valueCache : Option V

/-- The Value constructor: looks the datatype up in the registry (failing
on an unknown library or type) and stores the raw value. It does not
invoke parseValue. -/
def Value.construct {V : Type} (registry : Registry V)
    (xmlPath value typeName datatypeLibrary ns : String) :
    Except String (ValuePattern V) :=
  match registry datatypeLibrary with
  | none => .error ("unknown datatype library: " ++ datatypeLibrary)
  | some types =>
    match types typeName with
    | none => .error ("unknown type: " ++ typeName)
    | some dt =>
      .ok { xmlPath := xmlPath, datatype := dt, rawValue := value,
            typeName := typeName, datatypeLibrary := datatypeLibrary,
            ns := ns, valueCache := none }

/-- The value getter: returns the cached parsed value, or parses the raw
value on first access, building a pseudo-context whose resolver binds the
default prefix to the declared namespace when the datatype needs a
context. Returns the (possibly updated) pattern along with the value;
parse failure surfaces as an exception. -/
def ValuePattern.valueGetter {V : Type} (p : ValuePattern V) :
    Except String (V × ValuePattern V) :=
  match p.valueCache with
  | some ret => .ok (ret, p)
  | none =>
    let context : Option Context :=
      if p.datatype.needsContext then
        some { resolver := NameResolver.bindPfx NameResolver.initial "" p.ns }
      else none
    match p.datatype.parseValue p.xmlPath p.rawValue context with
    | .ok ret => .ok (ret, { p with valueCache := some ret })
    | .error e => .error e

/-- Value.hasEmptyPattern: true exactly when the raw value is empty. -/
def ValuePattern.hasEmptyPattern {V : Type} (p : ValuePattern V) : Bool :=
  p.rawValue == ""

/-- Walker state for the Value pattern. -/
structure ValueWalker (V : Type) where
  el : ValuePattern V
  nameResolver : NameResolver
  context : Option Context
  matched : Bool
  canEnd : Bool
  canEndAttribute : Bool
  possibleCached : Option (List Ev)

/-- Construction of a ValueWalker from its pattern and a name resolver. -/
def ValueWalker.start {V : Type} (el : ValuePattern V)
    (nameResolver : NameResolver) : ValueWalker V :=
  { el := el, nameResolver := nameResolver,
    context := if el.datatype.needsContext then
        some { resolver := nameResolver } else none,
    matched := false,
    canEnd := el.hasEmptyPattern,
    canEndAttribute := el.hasEmptyPattern,
    possibleCached := none }

/-- The ValueWalker's internal possibility computation: fills the cache
when it is unset with the singleton text event carrying the raw value, or
with the empty set once matched. -/
def ValueWalker.possibleInternal {V : Type} (w : ValueWalker V) :
    List Ev × ValueWalker V :=
  match w.possibleCached with
  | some s => (s, w)
  | none =>
    let s := if w.matched then [] else [{ name := "text",
                                          params := [w.el.rawValue] }]
    (s, { w with possibleCached := some s })

/-- The public possible() of the ValueWalker (inherited from the base
walker class): a fresh copy of the internal set. In this value-level
embedding the copy has the same contents; the aliasing aspect is treated
separately in the heap model below. -/
def ValueWalker.possible {V : Type} (w : ValueWalker V) :
    List Ev × ValueWalker V :=
  ValueWalker.possibleInternal w

/-- fireEvent of the ValueWalker. Returns NoMatch when already matched,
when the event is not a text event, or when the datatype's equality test
rejects the value; otherwise records the match. Accessing the pattern's
value can raise the parse exception, hence the outer Except. -/
def ValueWalker.fireEvent {V : Type} (w : ValueWalker V)
    (name : String) (params : List String) :
    Except String (FireEventResult × ValueWalker V) :=
  if w.matched || name != "text" then .ok (.noMatch, w)
  else
    match w.el.valueGetter with
    | .error e => .error e
    | .ok (v, el2) =>
      if !(el2.datatype.equal (params.headD "") v w.context) then
        .ok (.noMatch, { w with el := el2 })
      else
        .ok (.ok,
          { w with
              el := el2
              matched := true
              canEnd := true
              canEndAttribute := true
              possibleCached := none })

/-- The | source's form: firing a possibility event on a walker means
passing its name and its parameters to fireEvent. -/
def ValueWalker.fireEv {V : Type} (w : ValueWalker V) (e : Ev) :
    Except String (FireEventResult × ValueWalker V) :=
  ValueWalker.fireEvent w e.name e.params

/-- end() of the ValueWalker: no error when the walker can end, otherwise
a single value-required error. -/
def ValueWalker.endW {V : Type} (w : ValueWalker V) : EndResult :=
  if w.canEnd then .ok
  else .errors [⟨"value required: " ++ w.el.rawValue⟩]

/-- clone() of the ValueWalker: copies the pattern reference, clones the
name resolver through the memo (a value-equal copy), rebuilds the context
around the cloned resolver when one was present, and copies the state
flags and the possibility cache. -/
def ValueWalker.clone {V : Type} (w : ValueWalker V) : ValueWalker V :=
  { el := w.el, nameResolver := w.nameResolver,
    context := if w.context.isSome then
        some { resolver := w.nameResolver } else none,
    matched := w.matched, canEnd := w.canEnd,
    canEndAttribute := w.canEndAttribute,
    possibleCached := w.possibleCached }

/-- Well-formedness of a ValueWalker state: the possibility cache, when
set, holds the computed possibility set for the current state, and the
context is the one built from the walker's own name resolver. Every
walker the program builds satisfies this. -/
def ValueWalker.WF {V : Type} (w : ValueWalker V) : Prop :=
  (w.possibleCached = none ∨
    w.possibleCached = some (if w.matched then []
      else [{ name := "text", params := [w.el.rawValue] }])) ∧
  w.context = (if w.el.datatype.needsContext then
      some { resolver := w.nameResolver } else none)

theorem valueGetter_rawValue {V : Type} (p : ValuePattern V) (v : V)
    (p2 : ValuePattern V) (h : ValuePattern.valueGetter p = .ok (v, p2)) :
    p2.rawValue = p.rawValue := by
  unfold ValuePattern.valueGetter at h
  split at h
  · cases h
    rfl
  · dsimp only at h
    split at h
    · cases h
      rfl
    · cases h

/-- C4: the Value walker is single-shot. From the initial state onward,
fireEvent answers Ok only from an unmatched state, on a text event whose
value the datatype deems equal to the stored value, and flips the state to
matched; once matched every event answers NoMatch with the state
untouched; canEnd holds exactly when the walker has matched or the raw
form is empty, and end() produces a single error exactly when canEnd is
false. -/
theorem valueWalker_single_shot {V : Type} (el : ValuePattern V)
    (r : NameResolver) (w : ValueWalker V) (name : String)
    (params : List String)
    (hI : w.canEnd = (w.matched || w.el.rawValue == "")) :
    ((ValueWalker.start el r).matched = false ∧
      (ValueWalker.start el r).canEnd = (el.rawValue == "")) ∧
    (w.matched = true →
      ValueWalker.fireEvent w name params = .ok (.noMatch, w)) ∧
    (∀ res w2, ValueWalker.fireEvent w name params = Except.ok (res, w2) →
      (res = FireEventResult.ok →
        w.matched = false ∧ name = "text" ∧ w2.matched = true ∧
        w2.canEnd = true ∧
        ∃ v el2, ValuePattern.valueGetter w.el = Except.ok (v, el2) ∧
          el2.datatype.equal (params.headD "") v w.context = true) ∧
      w2.el.rawValue = w.el.rawValue ∧
      w2.canEnd = (w2.matched || w2.el.rawValue == "")) ∧
    (w.canEnd = true ↔ (w.matched = true ∨ w.el.rawValue = "")) ∧
    (ValueWalker.endW w = EndResult.ok ↔ w.canEnd = true) ∧
    (w.canEnd = false →
      ValueWalker.endW w =
        EndResult.errors [⟨"value required: " ++ w.el.rawValue⟩]) := by
  refine ⟨⟨rfl, rfl⟩, ?_, ?_, ?_, ?_, ?_⟩
  · intro hm
    unfold ValueWalker.fireEvent
    rw [hm]
    rfl
  · intro res w2 hfe
    unfold ValueWalker.fireEvent at hfe
    split at hfe
    · cases hfe
      refine ⟨?_, rfl, hI⟩
      intro hok
      cases hok
    · rename_i hcond
      simp at hcond
      obtain ⟨hm, hn⟩ := hcond
      split at hfe
      · exact Except.noConfusion hfe
      · rename_i pr v el2 hg
        split at hfe
        · cases hfe
          have hraw := valueGetter_rawValue w.el v el2 hg
          refine ⟨?_, hraw, ?_⟩
          · intro hok
            cases hok
          · show w.canEnd = (w.matched || el2.rawValue == "")
            rw [hraw]
            exact hI
        · rename_i heqt
          cases hfe
          have hraw := valueGetter_rawValue w.el v el2 hg
          have heq : el2.datatype.equal (params.headD "") v w.context
              = true := by
            simpa using heqt
          exact ⟨fun _ => ⟨hm, hn, rfl, rfl, v, el2, hg, heq⟩, hraw, by simp⟩
  · rw [hI]
    simp
  · unfold ValueWalker.endW
    cases hce : w.canEnd <;> simp [hce]
  · intro hce
    unfold ValueWalker.endW
    rw [hce]
    simp

theorem fireEvent_text_ok {V : Type} (w : ValueWalker V) (value : String)
    (v : V) (el2 : ValuePattern V)
    (hm : w.matched = false)
    (hg : ValuePattern.valueGetter w.el = Except.ok (v, el2))
    (heq : el2.datatype.equal value v w.context = true) :
    ValueWalker.fireEvent w "text" [value] =
      Except.ok (FireEventResult.ok,
        { w with
            el := el2
            matched := true
            canEnd := true
            canEndAttribute := true
            possibleCached := none }) := by
  unfold ValueWalker.fireEvent
  rw [hm, hg]
  simp [heq]

theorem clone_context_eq {V : Type} (w : ValueWalker V)
    (hwf : ValueWalker.WF w) :
    (ValueWalker.clone w).context = w.context := by
  rcases hwf with ⟨-, hctx⟩
  unfold ValueWalker.clone
  rw [hctx]
  by_cases hnc : w.el.datatype.needsContext = true <;> simp [hnc]

/-- C1: for the walkers of this module, every event of the possibility set
fires with Ok (not NoMatch, no errors) on a clone of the walker. For a
Value walker the possibility set is empty once matched and otherwise the
singleton text event carrying the raw value, which the clone consumes
whenever the datatype equality accepts the raw value against the parsed
value (the hypothesis hdt, satisfied by the datatype implementations); for
the Empty walker the possibility set is empty, so the property is vacuous
there. -/
theorem possible_event_fires_ok {V : Type} (w : ValueWalker V) (e : Ev)
    (hwf : ValueWalker.WF w)
    (he : e ∈ (ValueWalker.possible w).1)
    (hdt : ∃ v el2, ValuePattern.valueGetter w.el = Except.ok (v, el2) ∧
      el2.datatype.equal w.el.rawValue v w.context = true) :
    (∃ w2, ValueWalker.fireEv (ValueWalker.clone w) e =
      Except.ok (FireEventResult.ok, w2)) ∧
    EmptyWalker.possible = ([] : List Ev) := by
  refine ⟨?_, rfl⟩
  have hposs : (ValueWalker.possible w).1 =
      (if w.matched then []
        else [{ name := "text", params := [w.el.rawValue] }]) := by
    unfold ValueWalker.possible ValueWalker.possibleInternal
    rcases hwf.1 with hc | hc <;> rw [hc]
  rw [hposs] at he
  rcases hmv : w.matched with _ | _
  · rw [hmv] at he
    simp at he
    subst he
    obtain ⟨v, el2, hg, heq⟩ := hdt
    have hctxeq := clone_context_eq w hwf
    have hfire := fireEvent_text_ok (ValueWalker.clone w) w.el.rawValue v el2
      hmv hg (by rw [hctxeq]; exact heq)
    exact ⟨_, hfire⟩
  · rw [hmv] at he
    simp at he

/-! ### Concrete instances used to exercise the theorems -/

/-- A concrete context-free datatype over string values: parsing is the
identity and equality is string equality. -/
def strDatatype : Datatype String :=
  { needsContext := false,
    parseValue := fun _ s _ => .ok s,
    equal := fun s v _ => s == v }

/-- A concrete datatype that rejects every raw form at parse time. -/
def failDatatype : Datatype String :=
  { needsContext := false,
    parseValue := fun _ _ _ => .error "invalid raw form",
    equal := fun _ _ _ => false }

/-- A registry whose builtin library offers the token type as
strDatatype. -/
def strRegistry : Registry String :=
  fun lib => if lib = "" then
      some (fun t => if t = "token" then some strDatatype else none)
    else none

/-- A registry whose builtin library offers the token type as
failDatatype. -/
def failRegistry : Registry String :=
  fun lib => if lib = "" then
      some (fun t => if t = "token" then some failDatatype else none)
    else none

/-- A concrete Value pattern over strDatatype with raw value abc. -/
def valuePat0 : ValuePattern String :=
  { xmlPath := "p0", datatype := strDatatype, rawValue := "abc",
    typeName := "token", datatypeLibrary := "", ns := "",
    valueCache := none }

/-- The walker freshly created on valuePat0. -/
def valueWalker0 : ValueWalker String :=
  ValueWalker.start valuePat0 NameResolver.initial

/-- The Value pattern that Value.construct builds over failRegistry for
the raw value zzz. -/
def failValuePat : ValuePattern String :=
  { xmlPath := "pth", datatype := failDatatype, rawValue := "zzz",
    typeName := "token", datatypeLibrary := "", ns := "",
    valueCache := none }

/-- C1 witness at a concrete unmatched Value walker. -/
theorem possible_event_fires_ok_witness :
    ∃ w2, ValueWalker.fireEv (ValueWalker.clone valueWalker0)
        { name := "text", params := ["abc"] } =
      Except.ok (FireEventResult.ok, w2) :=
  (possible_event_fires_ok valueWalker0
    { name := "text", params := ["abc"] }
    ⟨Or.inl rfl, rfl⟩
    (by simp [valueWalker0, ValueWalker.start, ValueWalker.possible,
      ValueWalker.possibleInternal, valuePat0])
    ⟨"abc", { valuePat0 with valueCache := some "abc" }, rfl, rfl⟩).1

/-- C4 witness at a concrete unmatched Value walker: the state invariant
holds there, and a matched walker answers NoMatch to every event. -/
theorem valueWalker_single_shot_witness :
    valueWalker0.canEnd = (valueWalker0.matched ||
      valueWalker0.el.rawValue == "") ∧
    (valueWalker0.matched = true →
      ValueWalker.fireEvent valueWalker0 "text" ["abc"] =
        .ok (.noMatch, valueWalker0)) ∧
    (ValueWalker.endW valueWalker0 = EndResult.ok ↔
      valueWalker0.canEnd = true) :=
  ⟨rfl,
    (valueWalker_single_shot valuePat0 NameResolver.initial valueWalker0
      "text" ["abc"] rfl).2.1,
    (valueWalker_single_shot valuePat0 NameResolver.initial valueWalker0
      "text" ["abc"] rfl).2.2.2.2.1⟩

/-- C3 counterexample: constructing a Value pattern whose raw form the
datatype rejects succeeds without error and stores no parsed value; the
parse failure only surfaces when the value getter runs, which happens
after construction (from fireEvent), not at construction time. -/
theorem value_construct_no_parse_counterexample :
    Value.construct failRegistry "pth" "zzz" "token" "" "" =
      Except.ok failValuePat ∧
    failValuePat.valueCache = none ∧
    ValuePattern.valueGetter failValuePat =
      Except.error "invalid raw form" := by
  exact ⟨rfl, rfl, rfl⟩

/-- C3 amended: construction resolves the datatype in the registry
(failing on an unknown library or type) and stores the raw form unparsed;
the parsed value is computed lazily by the value getter, which calls
parseValue with a synthetic name resolver binding the default prefix to
the declared namespace when the datatype needs a context, and an invalid
raw form is reported at that first access rather than at construction. -/
theorem value_construct_defers_parse {V : Type} (reg : Registry V)
    (xp raw ty lib ns : String) (p : ValuePattern V)
    (h : Value.construct reg xp raw ty lib ns = Except.ok p) :
    p.valueCache = none ∧ p.rawValue = raw ∧ p.xmlPath = xp ∧ p.ns = ns ∧
    (∃ types, reg lib = some types ∧ types ty = some p.datatype) ∧
    ValuePattern.valueGetter p =
      (match p.datatype.parseValue xp raw
          (if p.datatype.needsContext then
            some { resolver := NameResolver.bindPfx NameResolver.initial "" ns }
          else none) with
        | Except.ok ret => Except.ok (ret, { p with valueCache := some ret })
        | Except.error e => Except.error e) := by
  unfold Value.construct at h
  split at h
  · exact Except.noConfusion h
  · rename_i types hreg
    split at h
    · exact Except.noConfusion h
    · rename_i dt hty
      cases h
      exact ⟨rfl, rfl, rfl, rfl, ⟨types, hreg, hty⟩, rfl⟩

/-- C3 amended witness: the deferred-parse characterization holds for the
concretely constructed pattern over strRegistry. -/
theorem value_construct_defers_parse_witness :
    Value.construct strRegistry "p0" "abc" "token" "" "" =
      Except.ok valuePat0 ∧
    valuePat0.valueCache = none ∧
    ValuePattern.valueGetter valuePat0 =
      (match valuePat0.datatype.parseValue "p0" "abc"
          (if valuePat0.datatype.needsContext then
            some { resolver := NameResolver.bindPfx NameResolver.initial "" "" }
          else none) with
        | Except.ok ret => Except.ok (ret,
            { valuePat0 with valueCache := some ret })
        | Except.error e => Except.error e) :=
  ⟨rfl,
    (value_construct_defers_parse strRegistry "p0" "abc" "token" "" ""
      valuePat0 rfl).1,
    (value_construct_defers_parse strRegistry "p0" "abc" "token" "" ""
      valuePat0 rfl).2.2.2.2.2⟩

/-! ### The reference-resolution pass -/

/-- The pattern-tree shapes relevant to resolution: leaves (whose base
_resolve returns undefined), one-child and two-child composites, and
references carrying a definition name. -/
inductive RPat where
  | leaf (xmlPath : String)
  | oneSub (xmlPath : String) (pat : RPat)
  | twoSub (xmlPath : String) (patA : RPat) (patB : RPat)
  | refPat (xmlPath : String) (name : String)
deriving Repr, DecidableEq

/-- The tree after the resolution pass: each reference carries its
binding, the pattern contained in the Define of matching name, or none
when no such Define exists. -/
inductive RPatR where
  | leaf (xmlPath : String)
  | oneSub (xmlPath : String) (pat : RPatR)
  | twoSub (xmlPath : String) (patA : RPatR) (patB : RPatR)
  | refPat (xmlPath : String) (name : String) (resolvesTo : Option RPat)
deriving Repr, DecidableEq

/-- How TwoSubpatterns._resolve combines the children's results: the
concatenation when both report unresolved refs, the defined one when only
one does, undefined when neither does. -/
def refUnion {α : Type} (a b : Option (List α)) : Option (List α) :=
  match a, b with
  | some la, some lb => some (la ++ lb)
  | some la, none => some la
  | none, b2 => b2

/-- The resolution pass over a tree, against a definitions map from
definition names to the patterns the definitions contain. A reference is
bound to the definition of matching name and reports itself (by path and
name) when there is none; composites combine their children's reports;
the pass does not descend into the bound definition. -/
def rresolve (defs : List (String × RPat)) :
    RPat → RPatR × Option (List (String × String))
  | .leaf p => (.leaf p, none)
  | .oneSub p pat =>
    let r := rresolve defs pat
    (.oneSub p r.1, r.2)
  | .twoSub p a b =>
    let ra := rresolve defs a
    let rb := rresolve defs b
    (.twoSub p ra.1 rb.1, refUnion ra.2 rb.2)
  | .refPat p n =>
    match defs.lookup n with
    | none => (.refPat p n none, some [(p, n)])
    | some d => (.refPat p n (some d), none)

/-- Specification of the pass result: the references of the tree whose
name has no definition, by path and name, in traversal order. The
collection never crosses into definition bodies. -/
def unresolvedRefs (defs : List (String × RPat)) :
    RPat → List (String × String)
  | .leaf _ => []
  | .oneSub _ pat => unresolvedRefs defs pat
  | .twoSub _ a b => unresolvedRefs defs a ++ unresolvedRefs defs b
  | .refPat p n => if (defs.lookup n).isSome then [] else [(p, n)]

/-- Checks that every reference of a resolved tree is bound to the lookup
of its name in the definitions map. -/
def bindingsCorrect (defs : List (String × RPat)) : RPatR → Bool
  | .leaf _ => true
  | .oneSub _ pat => bindingsCorrect defs pat
  | .twoSub _ a b => bindingsCorrect defs a && bindingsCorrect defs b
  | .refPat _ n rt => decide (rt = defs.lookup n)

theorem rresolve_snd_eq (defs : List (String × RPat)) (t : RPat) :
    (rresolve defs t).2 = (if unresolvedRefs defs t = [] then none
      else some (unresolvedRefs defs t)) := by
  induction t with
  | leaf p => simp [rresolve, unresolvedRefs]
  | oneSub p pat ih => simp [rresolve, unresolvedRefs, ih]
  | twoSub p a b iha ihb =>
    simp only [rresolve, unresolvedRefs, iha, ihb]
    rcases hA : unresolvedRefs defs a with _ | ⟨x, xs⟩ <;>
      rcases hB : unresolvedRefs defs b with _ | ⟨y, ys⟩ <;>
        simp [refUnion]
  | refPat p n =>
    simp only [rresolve, unresolvedRefs]
    rcases hl : defs.lookup n with _ | d <;> simp [hl]

theorem rresolve_bindings (defs : List (String × RPat)) (t : RPat) :
    bindingsCorrect defs (rresolve defs t).1 = true := by
  induction t with
  | leaf p => rfl
  | oneSub p pat ih => simpa [rresolve, bindingsCorrect] using ih
  | twoSub p a b iha ihb => simp [rresolve, bindingsCorrect, iha, ihb]
  | refPat p n =>
    simp only [rresolve]
    rcases hl : defs.lookup n with _ | d <;> simp [bindingsCorrect, hl]

/-- C5: the resolution pass returns exactly the unresolved references. A
reference is bound to the definition of matching name and reported
(itself) only when the name has no definition; a two-child pattern
reports the concatenation of its children's reports (undefined when both
resolve); and a resolved reference reports nothing regardless of what its
definition's body contains, because the pass does not cross the
reference-definition boundary. -/
theorem resolution_pass_characterization (defs : List (String × RPat))
    (t : RPat) :
    ((rresolve defs t).2 = (if unresolvedRefs defs t = [] then none
      else some (unresolvedRefs defs t))) ∧
    bindingsCorrect defs (rresolve defs t).1 = true ∧
    (∀ p n, rresolve defs (RPat.refPat p n) =
      (match defs.lookup n with
        | none => (RPatR.refPat p n none, some [(p, n)])
        | some d => (RPatR.refPat p n (some d), none))) ∧
    (∀ p a b, (rresolve defs (RPat.twoSub p a b)).2 =
      refUnion (rresolve defs a).2 (rresolve defs b).2) ∧
    (∀ p n d, defs.lookup n = some d →
      (rresolve defs (RPat.refPat p n)).2 = none) := by
  refine ⟨rresolve_snd_eq defs t, rresolve_bindings defs t,
    fun p n => rfl, fun p a b => rfl, ?_⟩
  intro p n d hl
  simp [rresolve, hl]

/-- The definitions map used to exercise C5: one definition, whose body
itself contains a reference to a missing name. -/
def defs0 : List (String × RPat) := [("d1", RPat.refPat "inner" "missing")]

/-- The tree used to exercise C5: one resolvable and one dangling ref. -/
def tree0 : RPat :=
  RPat.twoSub "t" (RPat.refPat "r1" "d1") (RPat.refPat "r2" "nope")

/-- C5 witness: on a concrete tree the pass reports exactly the dangling
reference, and a resolved reference reports nothing even though its
definition's body contains an unresolved reference. -/
theorem resolution_pass_characterization_witness :
    ((rresolve defs0 tree0).2 = (if unresolvedRefs defs0 tree0 = [] then none
      else some (unresolvedRefs defs0 tree0))) ∧
    (rresolve defs0 (RPat.refPat "r1" "d1")).2 = none :=
  ⟨(resolution_pass_characterization defs0 tree0).1,
    (resolution_pass_characterization defs0 tree0).2.2.2.2 "r1" "d1"
      (RPat.refPat "inner" "missing") rfl⟩

/-! ### Walker creation for Empty, Value, Define and Ref patterns -/

/-- The pattern kinds whose walker creation is embedded: the Empty
pattern, a leaf pattern standing for Value (which builds its own walker
from itself and the resolver), the Define pattern, and references either
bound to a definition (name, definition name and contained body) or
dangling. -/
inductive WPat where
  | emptyPat (xmlPath : String)
  | valuePat (xmlPath : String)
  | definePat (xmlPath : String) (name : String) (pat : WPat)
  | refResolved (xmlPath : String) (name : String) (defineName : String)
      (body : WPat)
  | refDangling (xmlPath : String) (name : String)
deriving Repr, DecidableEq

/-- Walkers for those pattern kinds, each carrying the pattern it
observes. -/
inductive WWalker where
  | emptyW (el : WPat)
  | valueW (el : WPat) (resolver : NameResolver)
  | defineW (el : WPat) (resolver : NameResolver) (sub : WWalker)
deriving Repr, DecidableEq

/-- newWalker: the Empty pattern builds a fresh EmptyWalker observing the
requested pattern — the registration call that runs after the class body
replaces the class-declared method with one constructing the walker from
the pattern, and the EmptyWalker constructor ignores the resolver; the
Value-like leaf builds a walker over itself; Define builds a walker
wrapping its body's walker; a resolved Ref returns the walker of the
definition's contained pattern, with no walker layer of its own; a
dangling Ref has no walker (the source would fail on its unresolved
binding). -/
def wnewWalker (r : NameResolver) : WPat → Option WWalker
  | .emptyPat p => some (.emptyW (.emptyPat p))
  | .valuePat p => some (.valueW (.valuePat p) r)
  | .definePat p n pat =>
    match wnewWalker r pat with
    | some sub => some (.defineW (.definePat p n pat) r sub)
    | none => none
  | .refResolved _ _ _ body => wnewWalker r body
  | .refDangling _ _ => none

/-- The pattern a walker observes: its el field. -/
def WWalker.el : WWalker → WPat
  | .emptyW e => e
  | .valueW e _ => e
  | .defineW e _ _ => e

/-- Whether a pattern is a reference. -/
def WPat.isRef : WPat → Bool
  | .refResolved _ _ _ _ => true
  | .refDangling _ _ => true
  | _ => false

theorem wnewWalker_el_not_ref (r : NameResolver) (q : WPat) (w : WWalker)
    (h : wnewWalker r q = some w) : (WWalker.el w).isRef = false := by
  induction q generalizing w with
  | emptyPat p =>
    cases h
    rfl
  | valuePat p =>
    cases h
    rfl
  | definePat p n pat ih =>
    unfold wnewWalker at h
    split at h
    · cases h
      rfl
    · cases h
  | refResolved p n dn body ih => exact ih w h
  | refDangling p n => cases h

/-- C6: a resolved Ref's newWalker returns exactly the walker created by
the pattern contained in the definition it resolves to, so any
observation of the two walkers coincides; and no walker created through
newWalker ever observes a Ref pattern, so no Ref-level walker is
interposed. -/
theorem ref_newWalker_flattens (r : NameResolver) (p n dn : String)
    (body : WPat) :
    wnewWalker r (WPat.refResolved p n dn body) = wnewWalker r body ∧
    (∀ q w, wnewWalker r q = some w → (WWalker.el w).isRef = false) :=
  ⟨rfl, fun q w h => wnewWalker_el_not_ref r q w h⟩

/-- C6 witness: the flattening holds concretely for a ref bound to a
definition containing a Value-like leaf. -/
theorem ref_newWalker_flattens_witness :
    wnewWalker NameResolver.initial
        (WPat.refResolved "rp" "rn" "dn" (WPat.valuePat "vb")) =
      wnewWalker NameResolver.initial (WPat.valuePat "vb") ∧
    (WWalker.el (WWalker.valueW (WPat.valuePat "vb")
        NameResolver.initial)).isRef = false :=
  ⟨(ref_newWalker_flattens NameResolver.initial "rp" "rn" "dn"
      (WPat.valuePat "vb")).1,
    (ref_newWalker_flattens NameResolver.initial "rp" "rn" "dn"
      (WPat.valuePat "vb")).2 (WPat.valuePat "vb")
      (WWalker.valueW (WPat.valuePat "vb") NameResolver.initial) rfl⟩

/-- C9 counterexample: requesting a walker from a resolved Ref pattern
returns the walker of the definition's contained pattern, whose observed
el field is that contained pattern — a different pattern from the Ref the
walker was requested from. So a walker obtained from P.newWalker does not
always observe P. -/
theorem ref_walker_el_counterexample :
    wnewWalker NameResolver.initial
        (WPat.refResolved "rp" "rn" "dn" (WPat.valuePat "vb")) =
      some (WWalker.valueW (WPat.valuePat "vb") NameResolver.initial) ∧
    WWalker.el (WWalker.valueW (WPat.valuePat "vb") NameResolver.initial) =
      WPat.valuePat "vb" ∧
    WPat.valuePat "vb" ≠
      WPat.refResolved "rp" "rn" "dn" (WPat.valuePat "vb") := by
  refine ⟨rfl, rfl, ?_⟩
  decide

/-- C9 amended: every pattern that instantiates a walker of its own —
Empty, the Value-like leaves, Define — yields a walker whose el field is
the very pattern newWalker was called on; a resolved Ref instead returns
the walker of its definition's contained pattern, which observes that
contained pattern. Every walker thus observes exactly the pattern whose
walker construction created it, never a pattern it did not originate
from. -/
theorem walker_el_origin_characterization (r : NameResolver) :
    (∀ p, wnewWalker r (WPat.emptyPat p) =
      some (WWalker.emptyW (WPat.emptyPat p))) ∧
    (∀ p, wnewWalker r (WPat.valuePat p) =
      some (WWalker.valueW (WPat.valuePat p) r)) ∧
    (∀ p n pat w, wnewWalker r (WPat.definePat p n pat) = some w →
      WWalker.el w = WPat.definePat p n pat) ∧
    (∀ p n dn body, wnewWalker r (WPat.refResolved p n dn body) =
      wnewWalker r body) := by
  refine ⟨fun p => rfl, fun p => rfl, ?_, fun p n dn body => rfl⟩
  intro p n pat w h
  unfold wnewWalker at h
  split at h
  · cases h
    rfl
  · cases h

/-- C9 amended witness: the Empty conjunct and the Define conjunct hold
concretely — each walker observes the pattern it was requested from. -/
theorem walker_el_origin_characterization_witness :
    wnewWalker NameResolver.initial (WPat.emptyPat "real") =
      some (WWalker.emptyW (WPat.emptyPat "real")) ∧
    WWalker.el (WWalker.defineW (WPat.definePat "dp" "dn" (WPat.valuePat "b"))
        NameResolver.initial
        (WWalker.valueW (WPat.valuePat "b") NameResolver.initial)) =
      WPat.definePat "dp" "dn" (WPat.valuePat "b") :=
  ⟨(walker_el_origin_characterization NameResolver.initial).1 "real",
    (walker_el_origin_characterization NameResolver.initial).2.2.1 "dp" "dn"
      (WPat.valuePat "b")
      (WWalker.defineW (WPat.definePat "dp" "dn" (WPat.valuePat "b"))
        NameResolver.initial
        (WWalker.valueW (WPat.valuePat "b") NameResolver.initial)) rfl⟩

/-! ### Freshness of the possibility set, over an explicit heap

Modelled from the spec where the event-set implementation is concerned
(its module is not among the embedded sources): sets live in a heap of
cells addressed by allocation order, so that object identity and caller
mutation are expressible. -/

/-- A heap of event sets. An address is an index into the list; cells are
allocated at the end. -/
abbrev SetHeap := List (List Ev)

/-- Allocate a new cell holding the given contents; returns the heap and
the fresh address. -/
def halloc (h : SetHeap) (v : List Ev) : SetHeap × Nat := (h ++ [v], h.length)

/-- Read a cell. -/
def hread (h : SetHeap) (a : Nat) : List Ev := List.getD h a []

/-- Mutate a cell, as a caller would mutate a set it was handed. -/
def hwrite (h : SetHeap) (a : Nat) (v : List Ev) : SetHeap := List.set h a v

/-- A walker as seen by the base-class possible(): the address of its
cached possibility set when one is cached, and the contents its
per-pattern computation would produce for the current state (held
abstract here). -/
structure CachedWalker where
  possibleCachedAddr : Option Nat
  compute : List Ev

/-- The base-class internal possibility computation: returns the cache
address, first filling the cache with a newly allocated set when it is
unset. -/
def CachedWalker.possibleInternalH (h : SetHeap) (w : CachedWalker) :
    SetHeap × CachedWalker × Nat :=
  match w.possibleCachedAddr with
  | some a => (h, w, a)
  | none =>
    let r := halloc h w.compute
    (r.1, { w with possibleCachedAddr := some r.2 }, r.2)

/-- The base-class possible(): a newly allocated set copying the contents
of the set the internal computation returns. -/
def CachedWalker.possibleH (h : SetHeap) (w : CachedWalker) :
    SetHeap × CachedWalker × Nat :=
  let r1 := CachedWalker.possibleInternalH h w
  let r2 := halloc r1.1 (hread r1.1 r1.2.2)
  (r2.1, r1.2.1, r2.2)

/-- The Empty walker's overriding possible(): always a newly allocated
empty set, the cache untouched. -/
def EmptyWalker.possibleH (h : SetHeap) : SetHeap × Nat := halloc h []

theorem hread_hwrite_ne (h : SetHeap) (a b : Nat) (v : List Ev)
    (hne : a ≠ b) : hread (hwrite h b v) a = hread h a := by
  unfold hread hwrite
  rw [List.getD_eq_getElem?_getD, List.getD_eq_getElem?_getD,
    List.getElem?_set_ne (Ne.symm hne)]

theorem hread_append_lt (h : SetHeap) (x : List Ev) (a : Nat)
    (hlt : a < List.length h) : hread (h ++ [x]) a = hread h a := by
  unfold hread
  rw [List.getD_eq_getElem?_getD, List.getD_eq_getElem?_getD,
    List.getElem?_append_left hlt]

theorem hread_append_self (h : SetHeap) (x : List Ev) :
    hread (h ++ [x]) (List.length h) = x := by
  unfold hread
  rw [List.getD_eq_getElem?_getD, List.getElem?_concat_length]
  rfl

theorem possibleH_shape (h : SetHeap) (w : CachedWalker)
    (hv : ∀ a, w.possibleCachedAddr = some a → a < List.length h) :
    ∃ H1 a, (CachedWalker.possibleH h w).2.1.possibleCachedAddr = some a ∧
      a < List.length H1 ∧
      (CachedWalker.possibleH h w).1 = H1 ++ [hread H1 a] ∧
      (CachedWalker.possibleH h w).2.2 = List.length H1 := by
  rcases hc : w.possibleCachedAddr with _ | a0
  · refine ⟨h ++ [w.compute], List.length h, ?_, by simp, ?_, ?_⟩
    · unfold CachedWalker.possibleH CachedWalker.possibleInternalH
      rw [hc]
      rfl
    · unfold CachedWalker.possibleH CachedWalker.possibleInternalH
      rw [hc]
      rfl
    · unfold CachedWalker.possibleH CachedWalker.possibleInternalH
      rw [hc]
      rfl
  · have ha0 := hv a0 hc
    refine ⟨h, a0, ?_, ha0, ?_, ?_⟩
    · unfold CachedWalker.possibleH CachedWalker.possibleInternalH
      rw [hc]
      exact hc
    · unfold CachedWalker.possibleH CachedWalker.possibleInternalH
      rw [hc]
      rfl
    · unfold CachedWalker.possibleH CachedWalker.possibleInternalH
      rw [hc]
      rfl

/-- C7: possible() hands back a set the walker does not keep. The address
it returns differs from the walker's cache address; overwriting the
returned cell leaves the cached contents untouched; and a second
possible() call after such a mutation still returns the contents the
first call returned. The Empty walker's override likewise returns a
freshly allocated (empty) set, leaving its state alone. -/
theorem possible_returns_fresh_set (h : SetHeap) (w : CachedWalker)
    (hv : ∀ a, w.possibleCachedAddr = some a → a < List.length h) :
    (∀ a, (CachedWalker.possibleH h w).2.1.possibleCachedAddr = some a →
      (CachedWalker.possibleH h w).2.2 ≠ a) ∧
    (∀ v a, (CachedWalker.possibleH h w).2.1.possibleCachedAddr = some a →
      hread (hwrite (CachedWalker.possibleH h w).1
          (CachedWalker.possibleH h w).2.2 v) a =
        hread (CachedWalker.possibleH h w).1 a) ∧
    (∀ v,
      hread (CachedWalker.possibleH
          (hwrite (CachedWalker.possibleH h w).1
            (CachedWalker.possibleH h w).2.2 v)
          (CachedWalker.possibleH h w).2.1).1
        (CachedWalker.possibleH
          (hwrite (CachedWalker.possibleH h w).1
            (CachedWalker.possibleH h w).2.2 v)
          (CachedWalker.possibleH h w).2.1).2.2 =
      hread (CachedWalker.possibleH h w).1
        (CachedWalker.possibleH h w).2.2) ∧
    ((EmptyWalker.possibleH h).2 = List.length h ∧
      hread (EmptyWalker.possibleH h).1 (EmptyWalker.possibleH h).2 = []) := by
  obtain ⟨H1, a, hca, hlt, hH2, hb⟩ := possibleH_shape h w hv
  have hab : a ≠ List.length H1 := by omega
  refine ⟨?_, ?_, ?_, rfl, hread_append_self h []⟩
  · intro a2 ha2
    rw [hca] at ha2
    cases ha2
    rw [hb]
    omega
  · intro v a2 ha2
    rw [hca] at ha2
    cases ha2
    rw [hb]
    exact hread_hwrite_ne _ _ _ _ hab
  · intro v
    have hsecond : ∀ (H3 : SetHeap) (w3 : CachedWalker),
        w3.possibleCachedAddr = some a →
        CachedWalker.possibleH H3 w3 =
          (H3 ++ [hread H3 a], w3, List.length H3) := by
      intro H3 w3 hc3
      unfold CachedWalker.possibleH CachedWalker.possibleInternalH
      rw [hc3]
      rfl
    rw [hsecond _ _ hca]
    rw [hread_append_self]
    rw [hH2, hb]
    rw [hread_hwrite_ne _ _ _ _ hab]
    rw [hread_append_lt H1 _ a hlt, hread_append_self]

/-- The concrete cached walker used to exercise C7. -/
def cachedWalker0 : CachedWalker :=
  { possibleCachedAddr := none,
    compute := [{ name := "text", params := ["abc"] }] }

/-- C7 witness: the freshness properties hold on the empty heap for a
walker with an unset cache. -/
theorem possible_returns_fresh_set_witness :
    (∀ a, (CachedWalker.possibleH [] cachedWalker0).2.1.possibleCachedAddr
        = some a →
      (CachedWalker.possibleH [] cachedWalker0).2.2 ≠ a) ∧
    ((EmptyWalker.possibleH []).2 = List.length ([] : SetHeap) ∧
      hread (EmptyWalker.possibleH []).1 (EmptyWalker.possibleH []).2 = []) :=
  ⟨(possible_returns_fresh_set [] cachedWalker0
      (fun _ ha => Option.noConfusion ha)).1,
    (possible_returns_fresh_set [] cachedWalker0
      (fun _ ha => Option.noConfusion ha)).2.2.2⟩

/-! ### The clone memo -/

/-- A clonable sub-object as keyed by the memo's hash map: an identity
(its hash) and a payload. Name resolvers and sub-walkers play this role
in the source. -/
structure ClonableObj where
  oid : Nat
  data : String
deriving Repr, DecidableEq

/-- The memo carried through one clone() call: a map from the identity of
an original object to its registered copy. It is discarded when the clone
call returns. -/
abbrev CloneMemo := List (Nat × ClonableObj)

/-- _cloneIfNeeded: return the copy the memo already records for the
object, or clone the object (a fresh identity, the same payload), record
the copy in the memo, and return it. The counter supplies the fresh
identities that the source's object construction would. -/
def cloneIfNeeded (fresh : Nat) (memo : CloneMemo) (o : ClonableObj) :
    ClonableObj × CloneMemo × Nat :=
  match memo.lookup o.oid with
  | some other => (other, memo, fresh)
  | none =>
    let other : ClonableObj := { oid := fresh, data := o.data }
    (other, (o.oid, other) :: memo, fresh + 1)

/-- C8: within one memo a sub-object reached twice is copied exactly
once: a second _cloneIfNeeded on the same object returns exactly the copy
the first call returned and leaves the memo and the identity counter
untouched, so two references to the same sub-object in the original map
to one and the same copy; when the object was not yet in the memo, the
copy carries the original's payload under a fresh identity. -/
theorem clone_memo_idempotent (fresh : Nat) (memo : CloneMemo)
    (o : ClonableObj) :
    cloneIfNeeded (cloneIfNeeded fresh memo o).2.2
        (cloneIfNeeded fresh memo o).2.1 o =
      ((cloneIfNeeded fresh memo o).1, (cloneIfNeeded fresh memo o).2.1,
        (cloneIfNeeded fresh memo o).2.2) ∧
    (memo.lookup o.oid = none →
      (cloneIfNeeded fresh memo o).1 =
        { oid := fresh, data := o.data }) := by
  rcases hl : memo.lookup o.oid with _ | other
  · have h1 : cloneIfNeeded fresh memo o =
        ({ oid := fresh, data := o.data },
          (o.oid, { oid := fresh, data := o.data }) :: memo, fresh + 1) := by
      unfold cloneIfNeeded
      rw [hl]
    rw [h1]
    refine ⟨?_, fun _ => rfl⟩
    unfold cloneIfNeeded
    simp [List.lookup]
  · have h1 : cloneIfNeeded fresh memo o = (other, memo, fresh) := by
      unfold cloneIfNeeded
      rw [hl]
    rw [h1]
    refine ⟨?_, ?_⟩
    · unfold cloneIfNeeded
      rw [hl]
    · intro hnone
      exact Option.noConfusion hnone

/-- C8 witness: starting from an empty memo, cloning the same object
twice yields one copy, which carries the original's payload. -/
theorem clone_memo_idempotent_witness :
    cloneIfNeeded (cloneIfNeeded 7 [] ⟨3, "res"⟩).2.2
        (cloneIfNeeded 7 [] ⟨3, "res"⟩).2.1 ⟨3, "res"⟩ =
      ((cloneIfNeeded 7 [] ⟨3, "res"⟩).1, (cloneIfNeeded 7 [] ⟨3, "res"⟩).2.1,
        (cloneIfNeeded 7 [] ⟨3, "res"⟩).2.2) ∧
    (cloneIfNeeded 7 [] ⟨3, "res"⟩).1 = { oid := 7, data := "res" } :=
  ⟨(clone_memo_idempotent 7 [] ⟨3, "res"⟩).1,
    (clone_memo_idempotent 7 [] ⟨3, "res"⟩).2 rfl⟩

/-! ### Event interning -/

/-- An interned Event object: its identity, its parameters, and the
cache key the parameters were joined into. -/
structure EventObj where
  eid : Nat
  params : List String
  key : String
deriving Repr, DecidableEq

/-- The module-wide event cache: interned events by key, and the next
identity. -/
structure EventCache where
  cache : List (String × EventObj)
  nextId : Nat
deriving Repr, DecidableEq

/-- The empty event cache. -/
def EventCache.empty : EventCache := { cache := [], nextId := 0 }

/-- The Event constructor: the parameters (passed spread or as one list,
both yielding the same parameter list) are joined with commas into a key;
when the cache holds an event of that key it is returned unchanged,
otherwise a new object is created, cached under the key, and returned. -/
def Event.construct (st : EventCache) (params : List String) :
    EventObj × EventCache :=
  let key := String.intercalate "," params
  match st.cache.lookup key with
  | some ev => (ev, st)
  | none =>
    let ev : EventObj := { eid := st.nextId, params := params, key := key }
    (ev, { cache := (key, ev) :: st.cache, nextId := st.nextId + 1 })

/-- C10: interning is keyed by the comma-join of the parameters, and the
distinct parameter lists ["a,b"] and ["a", "b"] join to the same key, so
constructing an event from the first and then one from the second returns
the identical cached object, which carries the parameters of the first
construction. -/
theorem event_interning_join_collision :
    (["a,b"] ≠ ["a", "b"]) ∧
    String.intercalate "," ["a,b"] = String.intercalate "," ["a", "b"] ∧
    (Event.construct (Event.construct EventCache.empty ["a,b"]).2
        ["a", "b"]).1 =
      (Event.construct EventCache.empty ["a,b"]).1 ∧
    (Event.construct (Event.construct EventCache.empty ["a,b"]).2
        ["a", "b"]).1.params = ["a,b"] := by
  refine ⟨by decide, by decide, by decide, by decide⟩

end Salve
